import Mathlib

/-!
# ipu-rhel-iso-builder: a shallow embedding of `main.go`

The program builds a customised RHEL bootc ISO.  `IsoBuilder.run` performs
preflight checks, starts two acquisition units (`prepareContainerImage`,
`prepareInputIso`) through `AsyncErr`, joins them with a `select` loop,
provisions a kickstart file, stages the inputs in a temporary directory and
calls `mkksiso`.

The embedding is explicit state passing.  A `Proc` value carries the builder
(`ib`), the working directory, the file system (the list of absolute paths that
exist) and the trace of the events so far.  Everything the program cannot
decide on its own (whether a tool is on `PATH`, exit statuses and standard
output of commands, errors of system calls, which of two full channels the
`select` statement takes) is read from a `World` value.

A function that may end the process through `log.Fatalf` returns a `Res`:
either the function returned (`ret`), or the process was ended (`exit`), in
which case deferred calls have not run, as with `os.Exit` in Go.

Concurrency.  The two goroutines work on disjoint fields of the builder and on
disjoint files.  The model runs each goroutine to its end where `AsyncErr`
starts it, which is one of the interleavings of the program, and keeps the
result as the content of the channel, which has room for one value.  What
stays open is the order in which the join loop receives the two signals; this
is `World.imgFirst`.

Go library functions the program calls (`fmt.Sprintf`, `strings.Split`,
`strings.TrimSpace`, `path.Join`, `path.Base`) are modelled after their
documented behaviour in the section *Go library*; the effect of the external
tools on the file system is modelled in `toolEffect`.
-/

namespace Go

/-! ## Go library -/

/-- The verbs of `fmt.Sprintf` used by the program: `%s`, `%v` and `%w` print the
next operand (a string, or an error through its message), `%%` prints a percent
sign.  Every other character is copied. -/
def sprintfAux : List Char → List String → List Char
  | [], _ => []
  | '%' :: '%' :: rest, args => '%' :: sprintfAux rest args
  | '%' :: 's' :: rest, a :: args => a.data ++ sprintfAux rest args
  | '%' :: 'v' :: rest, a :: args => a.data ++ sprintfAux rest args
  | '%' :: 'w' :: rest, a :: args => a.data ++ sprintfAux rest args
  | c :: rest, args => c :: sprintfAux rest args

/-- Model of `fmt.Sprintf` on string operands. -/
def Sprintf (format : String) (args : List String) : String :=
  ⟨sprintfAux format.data args⟩

/-- Split a character list at every occurrence of `sep`; the result always has
one more piece than there are separators, as `strings.Split` with a one-byte
separator. -/
def splitChar (sep : Char) : List Char → List (List Char)
  | [] => [[]]
  | c :: cs =>
    if c = sep then [] :: splitChar sep cs
    else
      match splitChar sep cs with
      | [] => [[c]]
      | piece :: pieces => (c :: piece) :: pieces

/-- Model of `strings.Split(s, ".")`. -/
def SplitDot (s : String) : List String :=
  (splitChar '.' s.data).map String.mk

/-- White space in the sense of `unicode.IsSpace`. -/
def isSpace (c : Char) : Bool :=
  c.toNat = 0x09 || c.toNat = 0x0A || c.toNat = 0x0B || c.toNat = 0x0C || c.toNat = 0x0D ||
  c.toNat = 0x20 || c.toNat = 0x85 || c.toNat = 0xA0 || c.toNat = 0x1680 ||
  (0x2000 ≤ c.toNat && c.toNat ≤ 0x200A) || c.toNat = 0x2028 || c.toNat = 0x2029 ||
  c.toNat = 0x202F || c.toNat = 0x205F || c.toNat = 0x3000

/-- Model of `strings.TrimSpace`: leading and trailing white space removed. -/
def TrimSpace (s : String) : String :=
  ⟨((s.data.dropWhile isSpace).reverse.dropWhile isSpace).reverse⟩

/-- Join path elements with a slash. -/
def joinSlash : List (List Char) → List Char
  | [] => []
  | [c] => c
  | c :: cs => c ++ '/' :: joinSlash cs

/-- The lexical processing of `path.Clean` on the slash-separated elements of a
path, with the elements kept so far in reverse order: empty elements and `.` are
dropped, `..` removes the element before it, is dropped at the start of a
rooted path and is kept at the start of a relative one. -/
def cleanElems (rooted : Bool) : List (List Char) → List (List Char) → List (List Char)
  | kept, [] => kept.reverse
  | kept, e :: es =>
    if e = [] ∨ e = ['.'] then cleanElems rooted kept es
    else if e = ['.', '.'] then
      match kept with
      | [] => if rooted then cleanElems rooted [] es else cleanElems rooted [e] es
      | top :: below =>
        if top = ['.', '.'] then cleanElems rooted (e :: kept) es
        else cleanElems rooted below es
    else cleanElems rooted (e :: kept) es

/-- Model of `path.Clean` on character lists. -/
def cleanChars (p : List Char) : List Char :=
  let rooted := p.head? = some '/'
  let elems := cleanElems rooted [] (splitChar '/' p)
  if rooted then '/' :: joinSlash elems
  else if elems = [] then ['.'] else joinSlash elems

/-- Model of `path.Clean`. -/
def Clean (p : String) : String := ⟨cleanChars p.data⟩

/-- Model of `path.Join`: empty elements are ignored, the rest is joined with
slashes and cleaned; the result is empty when every element is empty. -/
def Join (elems : List String) : String :=
  let used := (elems.filter (fun e => e ≠ "")).map String.data
  if used = [] then "" else ⟨cleanChars (joinSlash used)⟩

/-- Model of `path.Base`: the last element of the path, trailing slashes
removed; `.` for the empty path and `/` for a path of slashes only. -/
def Base (p : String) : String :=
  if p.data = [] then "."
  else
    let stripped := (p.data.reverse.dropWhile (fun c => c = '/')).reverse
    if stripped = [] then "/"
    else ⟨(splitChar '/' stripped).getLastD []⟩

end Go

namespace Main

open Go

/-! ## Data model -/

/-- A Go `error` value that is not nil: a message, and for errors built with the
`%w` verb the error that is wrapped. -/
inductive GoErr where
  | leaf (msg : String)
  | wrap (msg : String) (inner : GoErr)
  deriving DecidableEq

/-- The method `Error()` of an error. -/
def GoErr.Error : GoErr → String
  | .leaf msg => msg
  | .wrap msg _ => msg

/-- Model of `fmt.Errorf` for a format whose operands are printed with `%s`. -/
def Errorf (format : String) (args : List String) : GoErr :=
  .leaf (Sprintf format args)

/-- Model of `fmt.Errorf` for a format with one `%w` operand: the message is
formatted from the operand's message and the operand is wrapped. -/
def ErrorfW (format : String) (err : GoErr) : GoErr :=
  .wrap (Sprintf format [err.Error]) err

/-- The two channels of `run`: `imgErrCh` and `isoErrCh`. -/
inductive Chan where
  | img
  | iso
  deriving DecidableEq

/-- The fields of the Go struct `IsoBuilder`. -/
structure IsoBuilder where
  inputISO : String
  outputISO : String
  kickstartFile : String
  bootcImage : String
  kernelArgs : String
  tempDir : String
  rhelVersion : String
  rootDir : String
  deriving DecidableEq

/-- The constructor `NewIsoBuilder`: every field not listed is the empty string. -/
def NewIsoBuilder : IsoBuilder :=
  { inputISO := ""
    outputISO := ""
    kickstartFile := ""
    bootcImage := ""
    kernelArgs := "ip=192.168.0.2:::255.255.255.0::enp0s1f0:off netroot=iscsi:192.168.0.1::::iqn.e2000:acc acpi=force"
    tempDir := ""
    rhelVersion := "9.6"
    rootDir := "/workdir" }

/-- What the program does, in the order it does it: system calls (`lookPath`,
`chdir`, `stat`, `writeFile`, `removeAll`), external commands (`exec`), lines
printed (`println`), the fatal message before `os.Exit(1)` (`fatalf`), the call
of one of the three `prepare...` methods (`enter`), the start of a goroutine
(`go`) and the value received from a channel (`recv`). -/
inductive Event where
  | lookPath (name : String)
  | chdir (dir : String)
  | stat (path : String)
  | exec (name : String) (args : List String)
  | println (text : String)
  | writeFile (path : String) (content : String)
  | removeAll (path : String)
  | enter (method : String)
  | go (c : Chan)
  | recv (c : Chan) (err : Option GoErr)
  | fatalf (text : String)
  deriving DecidableEq

/-- The state of the process: the builder, the working directory, the absolute
paths that exist in the file system, and the events so far. -/
structure Proc where
  ib : IsoBuilder
  cwd : String
  fs : List String
  trace : List Event
  deriving DecidableEq

/-- What the surroundings answer.  Commands are asked with the number of events
recorded so far, so that the same command may answer differently when it is run
again.  `imgFirst` is the choice of the `select` statement when both channels
hold a value. -/
structure World where
  LookPath : String → Bool
  ChdirErr : String → Option GoErr
  cmdErr : Nat → String → List String → Option GoErr
  cmdOut : Nat → String → List String → String
  WriteFileErr : String → Option GoErr
  imgFirst : Bool

/-- How a Go function call ends: it returns a value, the process is ended by
`log.Fatalf` (which calls `os.Exit(1)`, so deferred calls are not run), or the
bound of a loop of the model is used up. -/
inductive Res (α : Type) where
  | ret (val : α) (p : Proc)
  | exit (p : Proc)
  | fuel (p : Proc)
  deriving DecidableEq

/-- The process state in which a call ended. -/
def Res.proc {α : Type} : Res α → Proc
  | .ret _ p => p
  | .exit p => p
  | .fuel p => p

/-- Sequencing: what follows a call runs only when the call returns. -/
def Res.andThen {α β : Type} (r : Res α) (next : α → Proc → Res β) : Res β :=
  match r with
  | .ret val p => next val p
  | .exit p => .exit p
  | .fuel p => .fuel p

/-! ## File system and external tools -/

/-- Record an event. -/
def emit (e : Event) (p : Proc) : Proc :=
  { p with trace := p.trace ++ [e] }

/-- The absolute path a path names in working directory `cwd`. -/
def resolve (cwd path : String) : String :=
  if path.data.head? = some '/' then Clean path else Join [cwd, path]

/-- The check `_, err := os.Stat(path); err == nil`.  The path is resolved by
its text, as `path.Clean` does, and `os.Stat` has two outcomes here, found and
not found: this is what the kernel answers for clean paths without symbolic
links in directories that can be searched. -/
def fileExists (p : Proc) (path : String) : Bool :=
  path ≠ "" && decide (resolve p.cwd path ∈ p.fs)

/-- A file system without `dir` and everything below it. -/
def removeTree (dir : String) (fs : List String) : List String :=
  fs.filter (fun f => !(f = dir || (dir.data ++ ['/']).isPrefixOf f.data))

/-- Model of `os.RemoveAll`: the empty path is ignored, a path whose last
element is `.` (the path `.` itself, or one that ends in `/.`) is refused,
everything else is removed with what is below it. -/
def RemoveAll (path : String) (p : Proc) : Proc :=
  let p := emit (.removeAll path) p
  if path = "" ∨ path = "." ∨ path.data.reverse.take 2 = ['.', '/'] then p
  else { p with fs := removeTree (resolve p.cwd path) p.fs }

/-- What a successful run of one of the external tools leaves in the file system:
`mktemp -d` creates the directory it prints, `cp file dir` creates the file under
its last path element in `dir`, `rm -rf` removes a tree, `curl -O` stores the
download under the last element of the URL, `skopeo copy` fills `/tmp/container`
and `mkksiso` writes its last operand. -/
def toolEffect (cwd name : String) (args : List String) (out : String)
    (fs : List String) : List String :=
  if name = "mktemp" then TrimSpace out :: fs
  else if name = "cp" then
    match args with
    | [file, dir] => Join [resolve cwd dir, Base file] :: fs
    | _ => fs
  else if name = "rm" then
    match args with
    | [_, path] => removeTree (resolve cwd path) fs
    | _ => fs
  else if name = "curl" then
    match args with
    | [_, url] => resolve cwd (Base url) :: fs
    | _ => fs
  else if name = "skopeo" then "/tmp/container" :: fs
  else if name = "mkksiso" then
    match args.getLast? with
    | some output => resolve cwd output :: fs
    | none => fs
  else fs

/-- Model of `exec.Command(name, args...).Run()`. -/
def execRun (w : World) (name : String) (args : List String) (p : Proc) :
    Option GoErr × Proc :=
  let n := p.trace.length
  let p := emit (.exec name args) p
  match w.cmdErr n name args with
  | some err => (some err, p)
  | none => (none, { p with fs := toolEffect p.cwd name args (w.cmdOut n name args) p.fs })

/-- Model of `exec.Command(name, args...).Output()`. -/
def execOutput (w : World) (name : String) (args : List String) (p : Proc) :
    String × Option GoErr × Proc :=
  let n := p.trace.length
  let r := execRun w name args p
  (w.cmdOut n name args, r.1, r.2)

/-- Model of `os.WriteFile`. -/
def WriteFile (w : World) (path content : String) (p : Proc) : Option GoErr × Proc :=
  let p := emit (.writeFile path content) p
  match w.WriteFileErr path with
  | some err => (some err, p)
  | none => (none, { p with fs := resolve p.cwd path :: p.fs })

/-- Model of `os.Chdir`. -/
def Chdir (w : World) (dir : String) (p : Proc) : Option GoErr × Proc :=
  let p := emit (.chdir dir) p
  match w.ChdirErr dir with
  | some err => (some err, p)
  | none => (none, { p with cwd := resolve p.cwd dir })

/-- The operand `%v` of a `[]string`. -/
def showArgs (args : List String) : String :=
  "[" ++ " ".intercalate args ++ "]"

/-- Model of `log.Fatalf`: the message is printed and the process ends. -/
def Fatalf {α : Type} (format : String) (args : List String) (p : Proc) : Res α :=
  .exit (emit (.fatalf (Sprintf format args)) p)

/-! ## The program -/

/-- The function `checkCommand`. -/
def checkCommand (w : World) (name : String) (p : Proc) : Res Unit :=
  let p := emit (.lookPath name) p
  if w.LookPath name then .ret () p
  else Fatalf "Required command %s not found in PATH" [name] p

/-- The loop `for _, command := range ... { checkCommand(command) }`. -/
def checkCommands (w : World) : List String → Proc → Res Unit
  | [], p => .ret () p
  | command :: rest, p =>
    (checkCommand w command p).andThen fun _ p => checkCommands w rest p

/-- The function `runCmd`. -/
def runCmd (w : World) (name : String) (args : List String) (p : Proc) : Res Unit :=
  match execRun w name args p with
  | (some _, p) => Fatalf "Command failed: %s %v" [name, showArgs args] p
  | (none, p) => .ret () p

/-- The function `runCmdOutput`. -/
def runCmdOutput (w : World) (name : String) (args : List String) (p : Proc) : Res String :=
  match execOutput w name args p with
  | (_, some _, p) => Fatalf "Command failed: %s %v" [name, showArgs args] p
  | (out, none, p) => .ret out p

/-- The function `ensureLoopSupport`.  A failing `os.Stat` is a not-exist error
here, the one error kind of `fileExists`. -/
def ensureLoopSupport (p : Proc) : Option GoErr × Proc :=
  let p := emit (.stat "/dev/loop-control") p
  if !fileExists p "/dev/loop-control" then
    (some (Errorf "/dev/loop-control missing. Are you in a privileged container?" []), p)
  else (none, p)

/-- The format string of the default kickstart file. -/
def kickstartFormat : String :=
  "# Root Password\nrootpw redhat\nlang en_US.UTF-8\ntimezone America/New_York --utc\ntext\neula --agreed\nskipx\nclearpart --all --initlabel\nautopart --type=lvm --noswap\nbootloader --location=mbr --driveorder=sda --append=\"%s\"\nnetwork --bootproto=dhcp --device=enp0s1f0d1\nostreecontainer --url=/run/install/repo/container --transport=oci --no-signature-verification\n%%post\necho \x27PermitRootLogin yes\x27 >> /etc/ssh/sshd_config\nsystemctl restart sshd.service\nnmcli con modify enp0s1f0 ipv4.never-default yes\n%%end\nreboot"

/-- The kickstart content `prepareKickstart` synthesizes for given kernel
arguments: `fmt.Sprintf` of the format and `ib.kernelArgs`. -/
def defaultKickstart (kernelArgs : String) : String :=
  Sprintf kickstartFormat [kernelArgs]

/-- The method `prepareKickstart`. -/
def prepareKickstart (w : World) (p : Proc) : Option GoErr × Proc :=
  let p := emit (.enter "prepareKickstart") p
  if p.ib.kickstartFile = "" then
    let p := emit (.stat "kickstart.ks") p
    if fileExists p "kickstart.ks" then
      (none, { p with ib := { p.ib with kickstartFile := "kickstart.ks" } })
    else
      let p := emit (.println "Generating default kickstart.ks") p
      let kickstart := defaultKickstart p.ib.kernelArgs
      let written := WriteFile w "kickstart.ks" kickstart p
      (written.1, { written.2 with ib := { written.2.ib with kickstartFile := "kickstart.ks" } })
  else (none, p)

/-- The method `prepareContainerImage`. -/
def prepareContainerImage (w : World) (p : Proc) : Res (Option GoErr) :=
  let p := emit (.enter "prepareContainerImage") p
  let p := emit (.println "Saving Bootc image to /tmp/container") p
  (runCmd w "rm" ["-rf", "/tmp/container"] p).andThen fun _ p =>
    let copied := execRun w "skopeo"
      ["copy", "--override-arch=arm64", Sprintf "docker://%s" [p.ib.bootcImage],
       "oci:/tmp/container:latest"] p
    .ret copied.1 copied.2

/-- The shell pipeline of `prepareInputIso` that lists the download directory. -/
def listingFormat : String :=
  "curl -s %s | grep -oP \x27href=\"\\K[RHEL-]*[\\d\\.-]+aarch64-boot\\.iso(?=\")\x27 | head -n1"

/-- The format of the download directory of a RHEL version. -/
def downloadFormat : String :=
  "http://download.eng.bos.redhat.com/rhel-%s/nightly/RHEL-%s/latest-RHEL-%s.%s/compose/BaseOS/aarch64/iso/"

/-- The method `prepareInputIso`. -/
def prepareInputIso (w : World) (p : Proc) : Res (Option GoErr) :=
  let p := emit (.enter "prepareInputIso") p
  if p.ib.inputISO = "" then
    match SplitDot p.ib.rhelVersion with
    | [major, minor] =>
      let downloadURL := Sprintf downloadFormat [major, major, major, minor]
      let cmd := Sprintf listingFormat [downloadURL]
      (runCmdOutput w "bash" ["-c", cmd] p).andThen fun isoName p =>
        let p := { p with ib := { p.ib with inputISO := TrimSpace isoName } }
        let p := emit (.println p.ib.inputISO) p
        if p.ib.inputISO = "" then
          .ret (some (Errorf "failed to extract ISO file name from %s" [downloadURL])) p
        else
          let p := emit (.stat p.ib.inputISO) p
          if !fileExists p p.ib.inputISO then
            (runCmd w "curl" ["-O", downloadURL ++ p.ib.inputISO] p).andThen fun _ p =>
              .ret none p
          else .ret none p
    | _ => .ret (some (Errorf "invalid RHEL version format: expected MAJOR.MINOR" [])) p
  else .ret none p

/-- The function `AsyncErr`, for the channel `c`: the goroutine runs `fn` and
puts its result in the channel, which has room for one value.  The model runs
the goroutine to its end at once and returns what the channel then holds. -/
def AsyncErr (c : Chan) (fn : Proc → Res (Option GoErr)) (p : Proc) : Res (Option GoErr) :=
  fn (emit (.go c) p)

/-- The case the `select` statement of `run` takes: a channel that was received
from holds nothing more, and with two full channels the scheduler decides. -/
def selectImg (imgFirst imgDone isoDone : Bool) : Bool :=
  if imgDone then false else if isoDone then true else imgFirst

/-- The loop `for !imgDone || !isoDone { select { ... } }` of `run`, for the
values `imgErrCh` and `isoErrCh` hold.  The result `some err` is the `return`
inside the loop, `none` is the end of the loop.  The first argument bounds the
number of iterations. -/
def joinLoop (imgFirst : Bool) (imgErrCh isoErrCh : Option GoErr) :
    Nat → Bool → Bool → Proc → Res (Option GoErr)
  | fuel, imgDone, isoDone, p =>
    if !imgDone || !isoDone then
      match fuel with
      | 0 => .fuel p
      | n + 1 =>
        if selectImg imgFirst imgDone isoDone then
          let p := emit (.recv .img imgErrCh) p
          match imgErrCh with
          | some err => .ret (some (ErrorfW "container image preparation failed: %w" err)) p
          | none =>
            joinLoop imgFirst imgErrCh isoErrCh n true isoDone
              (emit (.println "Done preparing container image!") p)
        else
          let p := emit (.recv .iso isoErrCh) p
          match isoErrCh with
          | some err => .ret (some (ErrorfW "ISO preparation failed: %w" err)) p
          | none =>
            joinLoop imgFirst imgErrCh isoErrCh n imgDone true
              (emit (.println "Done fetching ISO!") p)
    else .ret none p

/-- Lines 58 to 76 of `run`: the preflight checks. -/
def preflight (w : World) (p : Proc) : Res (Option GoErr) :=
  (checkCommands w ["mkksiso", "losetup", "skopeo"] p).andThen fun _ p =>
    match Chdir w p.ib.rootDir p with
    | (some err, p) =>
      .ret (some (Errorf "could not change to %s with error: %s" [p.ib.rootDir, err.Error])) p
    | (none, p) =>
      match ensureLoopSupport p with
      | (some err, p) => .ret (some (Errorf "loop support failed: %s" [err.Error])) p
      | (none, p) =>
        (runCmdOutput w "uname" ["-m"] p).andThen fun out p =>
          let arch := TrimSpace out
          if arch ≠ "aarch64" then
            .ret (some (Errorf "must run on aarch64 (got %s)" [arch])) p
          else
            let p := emit (.stat p.ib.outputISO) p
            if fileExists p p.ib.outputISO then
              .ret (some (Errorf "output ISO %s already exists" [p.ib.outputISO])) p
            else .ret none p

/-- Lines 78 to 100 of `run`: the two acquisition units are started and joined.
Two signals are pending when the loop starts, which bounds its iterations. -/
def acquire (w : World) (p : Proc) : Res (Option GoErr) :=
  let p := emit (.println "Fetching ISO...") p
  (AsyncErr .img (prepareContainerImage w) p).andThen fun imgErrCh p =>
    (AsyncErr .iso (prepareInputIso w) p).andThen fun isoErrCh p =>
      joinLoop w.imgFirst imgErrCh isoErrCh 2 false false p

/-- Lines 106 to 120 of `run`: temporary directory, staging and `mkksiso`.  The
deferred `os.RemoveAll(ib.tempDir)` takes its operand where the `defer`
statement stands and runs when `run` returns. -/
def stage (w : World) (p : Proc) : Res (Option GoErr) :=
  let p := emit (.println "Making tmp dir...") p
  (runCmdOutput w "mktemp" ["-d"] p).andThen fun out p =>
    let p := { p with ib := { p.ib with tempDir := out } }
    let p := { p with ib := { p.ib with tempDir := TrimSpace p.ib.tempDir } }
    let deferred := p.ib.tempDir
    let p := emit (.println (Sprintf "Copying input iso: %s and kickstartFile: %s in tempDir:%s..."
      [p.ib.inputISO, p.ib.kickstartFile, p.ib.tempDir])) p
    (runCmd w "cp" [p.ib.inputISO, p.ib.tempDir] p).andThen fun _ p =>
      (runCmd w "cp" [p.ib.kickstartFile, p.ib.tempDir] p).andThen fun _ p =>
        let p := { p with ib := { p.ib with inputISO := Join [p.ib.tempDir, p.ib.inputISO] } }
        let p := { p with ib :=
          { p.ib with kickstartFile := Join [p.ib.tempDir, p.ib.kickstartFile] } }
        let p := { p with ib := { p.ib with outputISO := Join ["/workdir", p.ib.outputISO] } }
        let p := emit (.println "Generating ISO...") p
        (runCmd w "mkksiso" ["--ks", p.ib.kickstartFile, "-a", "/tmp/container", "-c",
            p.ib.kernelArgs, p.ib.inputISO, p.ib.outputISO] p).andThen fun _ p =>
          let p := emit (.println "Done.") p
          .ret none (RemoveAll deferred p)

/-- Lines 102 to 120 of `run`: the kickstart file, then staging and `mkksiso`. -/
def assemble (w : World) (p : Proc) : Res (Option GoErr) :=
  match prepareKickstart w p with
  | (some err, p) => .ret (some err) p
  | (none, p) => stage w p

/-- The method `run`. -/
def run (w : World) (p : Proc) : Res (Option GoErr) :=
  match preflight w p with
  | .ret none p =>
    match acquire w p with
    | .ret none p => assemble w p
    | r => r
  | r => r

/-- The process at its start: nothing has happened yet. -/
def start (ib : IsoBuilder) (cwd : String) (fs : List String) : Proc :=
  { ib := ib, cwd := cwd, fs := fs, trace := [] }

/-! ## Classes of events -/

/-- Events of the preflight checks. -/
def preflightEvent : Event → Bool
  | .lookPath _ => true
  | .chdir _ => true
  | .stat _ => true
  | .fatalf _ => true
  | .exec name _ => name = "uname"
  | _ => false

/-- Events of the two acquisition units. -/
def unitEvent : Event → Bool
  | .go _ => true
  | .println _ => true
  | .stat _ => true
  | .fatalf _ => true
  | .enter method => method = "prepareContainerImage" || method = "prepareInputIso"
  | .exec name _ => name = "rm" || name = "skopeo" || name = "bash" || name = "curl"
  | _ => false

/-- The steps of `run` after acquisition: the call of `prepareKickstart` and its
write, `mktemp`, the staging `cp` commands, `mkksiso` and the removal of the
temporary directory. -/
def assemblyStep : Event → Bool
  | .enter method => method = "prepareKickstart"
  | .exec name _ => name = "mktemp" || name = "cp" || name = "mkksiso"
  | .writeFile _ _ => true
  | .removeAll _ => true
  | _ => false

/-- A completion signal that carries an error. -/
def failSignal : Event → Bool
  | .recv _ (some _) => true
  | _ => false

/-- The trace `t2` is `t1` followed by events that satisfy `P`. -/
def Ext (P : Event → Prop) (t1 t2 : List Event) : Prop :=
  ∃ s, t2 = t1 ++ s ∧ ∀ e ∈ s, P e

/-- Neither an assembly step nor a failed completion signal. -/
def calm (e : Event) : Prop := assemblyStep e = false ∧ failSignal e = false

/-! ## Observations on results and traces -/

/-- The value a call returned, if it returned. -/
def Res.returned {α : Type} : Res α → Option α
  | .ret val _ => some val
  | _ => none

/-- The process was ended by `log.Fatalf`. -/
def Res.exited {α : Type} : Res α → Bool
  | .exit _ => true
  | _ => false

/-- The bound of a loop of the model was used up. -/
def Res.outOfFuel {α : Type} : Res α → Bool
  | .fuel _ => true
  | _ => false

/-- The completion signals received in a trace, in order. -/
def signals : List Event → List (Chan × Option GoErr)
  | [] => []
  | .recv c err :: rest => (c, err) :: signals rest
  | _ :: rest => signals rest

/-! ## Scenarios -/

/-- The builder after flag parsing with no flag given: `output_iso` defaults to
`output.iso`, the other string flags to their initial values. -/
def flagDefaults : IsoBuilder :=
  { NewIsoBuilder with outputISO := "output.iso" }

/-- A host where every tool is installed and succeeds: `uname -m` prints
`aarch64`, `mktemp -d` prints `/tmp/tmp.Xa1`, the listing pipeline prints one ISO
name, and the container image signal is received first. -/
def goodWorld : World :=
  { LookPath := fun _ => true
    ChdirErr := fun _ => none
    cmdErr := fun _ _ _ => none
    cmdOut := fun _ name _ =>
      if name = "uname" then "aarch64\n"
      else if name = "mktemp" then "/tmp/tmp.Xa1\n"
      else if name = "bash" then "RHEL-9.6.0-aarch64-boot.iso\n"
      else ""
    WriteFileErr := fun _ => none
    imgFirst := true }

/-- The host of `goodWorld` on which the tool `name` exits with status 1. -/
def failingTool (name : String) : World :=
  { goodWorld with
    cmdErr := fun _ tool _ => if tool = name then some (.leaf "exit status 1") else none }

/-- A host where `skopeo copy` fails and the listing of the download directory
has no ISO name, so that both acquisition units fail. -/
def bothFail (imgFirst : Bool) : World :=
  { failingTool "skopeo" with
    cmdOut := fun _ name _ => if name = "uname" then "aarch64\n" else ""
    imgFirst := imgFirst }

/-- The process of the run on `bothFail true` with no flag given, when
preflight has passed. -/
def bothFailChecked : Proc :=
  (preflight (bothFail true) (start flagDefaults "/" ["/dev/loop-control"])).proc

/-- The same process when the container image unit has ended. -/
def bothFailImg : Proc :=
  (AsyncErr .img (prepareContainerImage (bothFail true))
    (emit (.println "Fetching ISO...") bothFailChecked)).proc

/-- The same process when the input ISO unit has ended as well. -/
def bothFailIso : Proc :=
  (AsyncErr .iso (prepareInputIso (bothFail true)) bothFailImg).proc

/-- The host of `goodWorld` on which no file can be written. -/
def readOnlyWorld : World :=
  { goodWorld with
    WriteFileErr := fun path => some (.leaf ("open " ++ path ++ ": read-only file system")) }

/-- Flags `-i rhel.iso -k ks.cfg -u quay.io/example/bootc`. -/
def suppliedInputs : IsoBuilder :=
  { flagDefaults with
    inputISO := "rhel.iso", kickstartFile := "ks.cfg", bootcImage := "quay.io/example/bootc" }

/-- A file system with the loop device, and the two supplied inputs in `/workdir`. -/
def workdirFiles : List String :=
  ["/dev/loop-control", "/workdir/rhel.iso", "/workdir/ks.cfg"]

set_option maxRecDepth 100000

/-! ## Traces only grow -/

theorem Ext.refl {P : Event → Prop} (t : List Event) : Ext P t t :=
  ⟨[], by simp, by simp⟩

theorem Ext.trans {P : Event → Prop} {a b c : List Event} (h1 : Ext P a b) (h2 : Ext P b c) :
    Ext P a c := by
  obtain ⟨s1, rfl, hs1⟩ := h1
  obtain ⟨s2, rfl, hs2⟩ := h2
  refine ⟨s1 ++ s2, by simp, ?_⟩
  intro e he
  rcases List.mem_append.mp he with h | h
  · exact hs1 e h
  · exact hs2 e h

theorem Ext.snoc {P : Event → Prop} {a b : List Event} {e : Event} (h : Ext P a b) (he : P e) :
    Ext P a (b ++ [e]) :=
  h.trans ⟨[e], rfl, by simpa using he⟩

theorem Ext.mono {P Q : Event → Prop} {a b : List Event} (hPQ : ∀ e, P e → Q e)
    (h : Ext P a b) : Ext Q a b := by
  obtain ⟨s, rfl, hs⟩ := h
  exact ⟨s, rfl, fun e he => hPQ e (hs e he)⟩

theorem Ext.emit {P : Event → Prop} {t : List Event} {e : Event} {p : Proc}
    (h : Ext P t p.trace) (he : P e) : Ext P t (emit e p).trace :=
  h.snoc he

theorem Ext.andThen {P : Event → Prop} {α β : Type} {t : List Event} {r : Res α}
    {next : α → Proc → Res β} (h1 : Ext P t r.proc.trace)
    (h2 : ∀ val q, Ext P t q.trace → Ext P t (next val q).proc.trace) :
    Ext P t (r.andThen next).proc.trace := by
  cases r with
  | ret val q => exact h2 val q h1
  | exit q => exact h1
  | fuel q => exact h1

theorem execRun_trace (w : World) (name : String) (args : List String) (p : Proc) :
    (execRun w name args p).2.trace = p.trace ++ [.exec name args] := by
  simp only [execRun]
  cases w.cmdErr p.trace.length name args <;> simp [emit]

theorem execRun_ext {P : Event → Prop} {t : List Event} {w : World} {name : String}
    {args : List String} {p : Proc} (h : Ext P t p.trace) (hexec : P (.exec name args)) :
    Ext P t (execRun w name args p).2.trace := by
  rw [execRun_trace]
  exact h.snoc hexec

theorem runCmd_ext {P : Event → Prop} {t : List Event} {w : World} {name : String}
    {args : List String} {p : Proc} (h : Ext P t p.trace) (hexec : P (.exec name args))
    (hfatal : ∀ s, P (.fatalf s)) :
    Ext P t (runCmd w name args p).proc.trace := by
  have ht : Ext P t (execRun w name args p).2.trace := execRun_ext h hexec
  unfold runCmd
  split
  · rename_i err q heq
    simp only [heq] at ht
    exact ht.emit (hfatal _)
  · rename_i q heq
    simp only [heq] at ht
    exact ht

theorem runCmdOutput_ext {P : Event → Prop} {t : List Event} {w : World} {name : String}
    {args : List String} {p : Proc} (h : Ext P t p.trace) (hexec : P (.exec name args))
    (hfatal : ∀ s, P (.fatalf s)) :
    Ext P t (runCmdOutput w name args p).proc.trace := by
  have ht : Ext P t (execRun w name args p).2.trace := execRun_ext h hexec
  unfold runCmdOutput execOutput
  split
  · rename_i o err q heq
    simp only [Prod.mk.injEq] at heq
    simp only [heq.2.2] at ht
    exact ht.emit (hfatal _)
  · rename_i o q heq
    simp only [Prod.mk.injEq] at heq
    simp only [heq.2.2] at ht
    exact ht

theorem checkCommands_ext {P : Event → Prop} {t : List Event} (w : World)
    (hlook : ∀ n, P (.lookPath n)) (hfatal : ∀ s, P (.fatalf s)) (names : List String)
    (p : Proc) (h : Ext P t p.trace) :
    Ext P t (checkCommands w names p).proc.trace := by
  induction names generalizing p with
  | nil => exact h
  | cons name rest ih =>
    unfold checkCommands
    refine Ext.andThen ?_ (fun _ q hq => ih q hq)
    unfold checkCommand
    dsimp only
    split_ifs
    · exact h.emit (hlook _)
    · exact (h.emit (hlook _)).emit (hfatal _)

theorem Chdir_ext {P : Event → Prop} {t : List Event} {w : World} {dir : String} {p : Proc}
    (h : Ext P t p.trace) (hP : P (.chdir dir)) : Ext P t (Chdir w dir p).2.trace := by
  unfold Chdir
  dsimp only
  split <;> exact h.emit hP

theorem ensureLoopSupport_ext {P : Event → Prop} {t : List Event} {p : Proc}
    (h : Ext P t p.trace) (hP : ∀ path, P (.stat path)) :
    Ext P t (ensureLoopSupport p).2.trace := by
  unfold ensureLoopSupport
  dsimp only
  split_ifs <;> exact h.emit (hP _)

theorem preflight_ext {P : Event → Prop} {t : List Event} (w : World) (p : Proc)
    (hP : ∀ e, preflightEvent e = true → P e) (h : Ext P t p.trace) :
    Ext P t (preflight w p).proc.trace := by
  unfold preflight
  refine Ext.andThen (checkCommands_ext w (fun _ => hP _ rfl) (fun _ => hP _ rfl) _ p h) ?_
  intro _ q hq
  have hcd : Ext P t (Chdir w q.ib.rootDir q).2.trace := Chdir_ext hq (hP _ rfl)
  split
  · rename_i err q1 heq
    simp only [heq] at hcd
    exact hcd
  · rename_i q1 heq
    simp only [heq] at hcd
    have hls : Ext P t (ensureLoopSupport q1).2.trace :=
      ensureLoopSupport_ext hcd (fun _ => hP _ rfl)
    split
    · rename_i err q2 heq2
      simp only [heq2] at hls
      exact hls
    · rename_i q2 heq2
      simp only [heq2] at hls
      refine Ext.andThen (runCmdOutput_ext hls (hP _ rfl) (fun _ => hP _ rfl)) ?_
      intro out q3 hq3
      dsimp only
      split_ifs
      · exact hq3
      · exact hq3.emit (hP _ rfl)
      · exact hq3.emit (hP _ rfl)

theorem prepareContainerImage_ext {P : Event → Prop} {t : List Event} (w : World) (p : Proc)
    (hP : ∀ e, unitEvent e = true → P e) (h : Ext P t p.trace) :
    Ext P t (prepareContainerImage w p).proc.trace := by
  have hen : P (.enter "prepareContainerImage") := hP _ rfl
  have hpr : ∀ s, P (.println s) := fun _ => hP _ rfl
  have hfa : ∀ s, P (.fatalf s) := fun _ => hP _ rfl
  have hrm : ∀ a, P (.exec "rm" a) := fun _ => hP _ rfl
  have hsk : ∀ a, P (.exec "skopeo" a) := fun _ => hP _ rfl
  unfold prepareContainerImage
  dsimp only
  refine Ext.andThen (runCmd_ext ((h.emit hen).emit (hpr _)) (hrm _) hfa) ?_
  intro _ q hq
  exact execRun_ext hq (hsk _)

theorem prepareInputIso_ext {P : Event → Prop} {t : List Event} (w : World) (p : Proc)
    (hP : ∀ e, unitEvent e = true → P e) (h : Ext P t p.trace) :
    Ext P t (prepareInputIso w p).proc.trace := by
  have h0 : Ext P t (emit (.enter "prepareInputIso") p).trace := h.emit (hP _ rfl)
  have hpr : ∀ s, P (.println s) := fun _ => hP _ rfl
  have hst : ∀ s, P (.stat s) := fun _ => hP _ rfl
  have hfa : ∀ s, P (.fatalf s) := fun _ => hP _ rfl
  have hba : ∀ a, P (.exec "bash" a) := fun _ => hP _ rfl
  have hcu : ∀ a, P (.exec "curl" a) := fun _ => hP _ rfl
  unfold prepareInputIso
  dsimp only
  split_ifs
  · split
    · refine Ext.andThen (runCmdOutput_ext h0 (hba _) hfa) ?_
      intro isoName q hq
      dsimp only
      split_ifs
      · exact hq.emit (hpr _)
      · refine Ext.andThen (runCmd_ext ((hq.emit (hpr _)).emit (hst _)) (hcu _) hfa) ?_
        intro _ q1 hq1
        exact hq1
      · exact (hq.emit (hpr _)).emit (hst _)
    · exact h0
  · exact h0

theorem prepareKickstart_ext {P : Event → Prop} {t : List Event} (w : World) (p : Proc)
    (hen : P (.enter "prepareKickstart")) (hst : ∀ s, P (.stat s)) (hpr : ∀ s, P (.println s))
    (hwr : ∀ f c, P (.writeFile f c)) (h : Ext P t p.trace) :
    Ext P t (prepareKickstart w p).2.trace := by
  unfold prepareKickstart WriteFile
  dsimp only
  split_ifs
  · exact (h.emit hen).emit (hst _)
  · split <;> exact (((h.emit hen).emit (hst _)).emit (hpr _)).emit (hwr _ _)
  · exact h.emit hen

theorem RemoveAll_ext {P : Event → Prop} {t : List Event} (path : String) (p : Proc)
    (hP : P (.removeAll path)) (h : Ext P t p.trace) : Ext P t (RemoveAll path p).trace := by
  unfold RemoveAll
  dsimp only
  split_ifs <;> exact h.emit hP

theorem stage_ext {P : Event → Prop} {t : List Event} (w : World) (p : Proc)
    (hpr : ∀ s, P (.println s)) (hex : ∀ n a, P (.exec n a)) (hfa : ∀ s, P (.fatalf s))
    (hrm : ∀ s, P (.removeAll s)) (h : Ext P t p.trace) :
    Ext P t (stage w p).proc.trace := by
  unfold stage
  dsimp only
  refine Ext.andThen (runCmdOutput_ext (h.emit (hpr _)) (hex _ _) hfa) ?_
  intro out q hq
  refine Ext.andThen (runCmd_ext (hq.emit (hpr _)) (hex _ _) hfa) ?_
  intro _ q1 hq1
  refine Ext.andThen (runCmd_ext hq1 (hex _ _) hfa) ?_
  intro _ q2 hq2
  refine Ext.andThen (runCmd_ext (hq2.emit (hpr _)) (hex _ _) hfa) ?_
  intro _ q3 hq3
  exact RemoveAll_ext _ _ (hrm _) (hq3.emit (hpr _))

theorem assemble_ext {P : Event → Prop} {t : List Event} (w : World) (p : Proc)
    (hP : ∀ e, failSignal e = false → P e) (h : Ext P t p.trace) :
    Ext P t (assemble w p).proc.trace := by
  have hk : Ext P t (prepareKickstart w p).2.trace :=
    prepareKickstart_ext w p (hP _ rfl) (fun _ => hP _ rfl) (fun _ => hP _ rfl)
      (fun _ _ => hP _ rfl) h
  unfold assemble
  split
  · rename_i err q heq
    simp only [heq] at hk
    exact hk
  · rename_i q heq
    simp only [heq] at hk
    exact stage_ext w q (fun _ => hP _ rfl) (fun _ _ => hP _ rfl) (fun _ => hP _ rfl)
      (fun _ => hP _ rfl) hk

/-! ## The join loop and the shape of a run -/

theorem joinLoop_ext {P : Event → Prop} {t : List Event} (imgFirst : Bool)
    (a b : Option GoErr) (p : Proc) (hrecv : ∀ c v, P (.recv c v)) (hpr : ∀ s, P (.println s))
    (h : Ext P t p.trace) :
    Ext P t (joinLoop imgFirst a b 2 false false p).proc.trace := by
  cases imgFirst <;> cases a <;> cases b <;> simp only [joinLoop, selectImg, Res.proc] <;>
    simp <;>
    first
    | exact h.emit (hrecv _ _)
    | exact ((h.emit (hrecv _ _)).emit (hpr _)).emit (hrecv _ _)
    | exact (((h.emit (hrecv _ _)).emit (hpr _)).emit (hrecv _ _)).emit (hpr _)

theorem joinLoop_done {P : Event → Prop} {t : List Event} (imgFirst : Bool)
    (a b : Option GoErr) (p q : Proc) (hjoin : joinLoop imgFirst a b 2 false false p = .ret none q)
    (himg : P (.recv .img none)) (hiso : P (.recv .iso none)) (hpr : ∀ s, P (.println s))
    (h : Ext P t p.trace) :
    Ext P t q.trace ∧ Event.recv .img none ∈ q.trace ∧ Event.recv .iso none ∈ q.trace := by
  cases imgFirst <;> cases a <;> cases b <;> simp [joinLoop, selectImg] at hjoin <;>
    subst hjoin <;>
    exact ⟨(((h.emit (by assumption)).emit (hpr _)).emit (by assumption)).emit (hpr _),
      by simp [emit], by simp [emit]⟩

theorem unit_not_assembly (e : Event) (h : unitEvent e = true) : assemblyStep e = false := by
  cases e <;> simp [unitEvent, assemblyStep] at h ⊢
  · rcases h with ((h | h) | h) | h <;> subst h <;> decide
  · rcases h with h | h <;> subst h <;> decide

theorem unit_not_failSignal (e : Event) (h : unitEvent e = true) : failSignal e = false := by
  cases e <;> simp [unitEvent, failSignal] at h ⊢

theorem preflight_not_assembly (e : Event) (h : preflightEvent e = true) :
    assemblyStep e = false := by
  cases e <;> simp [preflightEvent, assemblyStep] at h ⊢
  subst h
  decide

theorem preflight_not_failSignal (e : Event) (h : preflightEvent e = true) :
    failSignal e = false := by
  cases e <;> simp [preflightEvent, failSignal] at h ⊢

theorem acquire_ext {P : Event → Prop} {t : List Event} (w : World) (p : Proc)
    (hP : ∀ e, unitEvent e = true → P e) (hrecv : ∀ c v, P (.recv c v))
    (h : Ext P t p.trace) : Ext P t (acquire w p).proc.trace := by
  have hpr : ∀ s, P (.println s) := fun _ => hP _ rfl
  have hgo : ∀ c, P (.go c) := fun _ => hP _ rfl
  unfold acquire AsyncErr
  dsimp only
  refine Ext.andThen (prepareContainerImage_ext w _ hP ((h.emit (hpr _)).emit (hgo _))) ?_
  intro a q1 hq1
  refine Ext.andThen (prepareInputIso_ext w _ hP (hq1.emit (hgo _))) ?_
  intro b q2 hq2
  exact joinLoop_ext _ a b q2 hrecv hpr hq2

theorem acquire_done {P : Event → Prop} {t : List Event} (w : World) (p q : Proc)
    (hacq : acquire w p = .ret none q)
    (hP : ∀ e, unitEvent e = true → P e) (himg : P (.recv .img none))
    (hiso : P (.recv .iso none)) (h : Ext P t p.trace) :
    Ext P t q.trace ∧ Event.recv .img none ∈ q.trace ∧ Event.recv .iso none ∈ q.trace := by
  have hpr : ∀ s, P (.println s) := fun _ => hP _ rfl
  have hgo : ∀ c, P (.go c) := fun _ => hP _ rfl
  have h1 := prepareContainerImage_ext w _ hP ((h.emit (hpr "Fetching ISO...")).emit (hgo .img))
  unfold acquire AsyncErr at hacq
  dsimp only at hacq
  cases hr1 : prepareContainerImage w (emit (.go .img) (emit (.println "Fetching ISO...") p)) with
  | exit q1 => simp [hr1, Res.andThen] at hacq
  | fuel q1 => simp [hr1, Res.andThen] at hacq
  | ret a q1 =>
    simp only [hr1, Res.andThen, Res.proc] at hacq h1
    have h2 := prepareInputIso_ext w _ hP (h1.emit (hgo .iso))
    cases hr2 : prepareInputIso w (emit (.go .iso) q1) with
    | exit q2 => simp [hr2] at hacq
    | fuel q2 => simp [hr2] at hacq
    | ret b q2 =>
      simp only [hr2, Res.proc] at hacq h2
      exact joinLoop_done _ a b q2 q hacq himg hiso hpr h2

/-- The shape of the trace of a run: events before assembly, then the events of
assembly, which are there only after both signals were received without error. -/
theorem run_shape (w : World) (p : Proc) (t : List Event) (h : Ext calm t p.trace) :
    Ext (fun e => assemblyStep e = false) t (run w p).proc.trace ∨
    ∃ q : Proc, Ext calm t q.trace ∧ Event.recv .img none ∈ q.trace ∧ Event.recv .iso none ∈ q.trace ∧
      Ext (fun e => failSignal e = false) q.trace (run w p).proc.trace := by
  have hweak : Ext (fun e => assemblyStep e = false) t p.trace := h.mono (fun _ he => he.1)
  have hpre := preflight_ext w p preflight_not_assembly hweak
  have hpre2 := preflight_ext w p
    (fun e he => (⟨preflight_not_assembly e he, preflight_not_failSignal e he⟩ : calm e)) h
  unfold run
  cases hr : preflight w p with
  | exit q => left; simpa [hr] using hpre
  | fuel q => left; simpa [hr] using hpre
  | ret v p1 =>
    cases v with
    | some err => left; simpa [hr] using hpre
    | none =>
      simp only [hr, Res.proc] at hpre hpre2 ⊢
      have hacq := acquire_ext w p1 unit_not_assembly (fun _ _ => rfl) hpre
      cases hr2 : acquire w p1 with
      | exit q => left; simpa [hr2] using hacq
      | fuel q => left; simpa [hr2] using hacq
      | ret v q =>
        cases v with
        | some err => left; simpa [hr2] using hacq
        | none =>
          right
          have hd := acquire_done w p1 q hr2
            (fun e he => (⟨unit_not_assembly e he, unit_not_failSignal e he⟩ : calm e))
            ⟨rfl, rfl⟩ ⟨rfl, rfl⟩ hpre2
          exact ⟨q, hd.1, hd.2.1, hd.2.2, assemble_ext w q (fun _ he => he) (Ext.refl _)⟩

/-! ## The loop bound is never used up -/

theorem andThen_fuel {α β : Type} (r : Res α) (next : α → Proc → Res β)
    (h1 : r.outOfFuel = false) (h2 : ∀ val q, (next val q).outOfFuel = false) :
    (r.andThen next).outOfFuel = false := by
  cases r with
  | ret val q => exact h2 val q
  | exit q => rfl
  | fuel q => simp [Res.outOfFuel] at h1

theorem runCmd_fuel (w : World) (name : String) (args : List String) (p : Proc) :
    (runCmd w name args p).outOfFuel = false := by
  unfold runCmd
  split <;> rfl

theorem runCmdOutput_fuel (w : World) (name : String) (args : List String) (p : Proc) :
    (runCmdOutput w name args p).outOfFuel = false := by
  unfold runCmdOutput
  split <;> rfl

theorem checkCommands_fuel (w : World) (names : List String) (p : Proc) :
    (checkCommands w names p).outOfFuel = false := by
  induction names generalizing p with
  | nil => rfl
  | cons name rest ih =>
    unfold checkCommands
    refine andThen_fuel _ _ ?_ (fun _ q => ih q)
    unfold checkCommand
    dsimp only
    split_ifs <;> rfl

theorem preflight_fuel (w : World) (p : Proc) : (preflight w p).outOfFuel = false := by
  unfold preflight
  refine andThen_fuel _ _ (checkCommands_fuel w _ p) ?_
  intro _ q
  split
  · rfl
  · split
    · rfl
    · refine andThen_fuel _ _ (runCmdOutput_fuel w _ _ _) ?_
      intro out q3
      dsimp only
      split_ifs <;> rfl

theorem prepareContainerImage_fuel (w : World) (p : Proc) :
    (prepareContainerImage w p).outOfFuel = false := by
  unfold prepareContainerImage
  exact andThen_fuel _ _ (runCmd_fuel w _ _ _) (fun _ _ => rfl)

theorem prepareInputIso_fuel (w : World) (p : Proc) :
    (prepareInputIso w p).outOfFuel = false := by
  unfold prepareInputIso
  dsimp only
  split_ifs
  · split
    · refine andThen_fuel _ _ (runCmdOutput_fuel w _ _ _) ?_
      intro isoName q
      dsimp only
      split_ifs
      · rfl
      · exact andThen_fuel _ _ (runCmd_fuel w _ _ _) (fun _ _ => rfl)
      · rfl
    · rfl
  · rfl

theorem joinLoop_fuel (imgFirst : Bool) (a b : Option GoErr) (p : Proc) :
    (joinLoop imgFirst a b 2 false false p).outOfFuel = false := by
  cases imgFirst <;> cases a <;> cases b <;> simp [joinLoop, selectImg, Res.outOfFuel]

/-- Two iterations are enough: a larger bound gives the same result. -/
theorem joinLoop_bound (imgFirst : Bool) (a b : Option GoErr) (p : Proc) (n : Nat) :
    joinLoop imgFirst a b (n + 2) false false p = joinLoop imgFirst a b 2 false false p := by
  cases imgFirst <;> cases a <;> cases b <;> simp [joinLoop, selectImg] <;>
    cases n <;> simp [joinLoop]

theorem acquire_fuel (w : World) (p : Proc) : (acquire w p).outOfFuel = false := by
  unfold acquire AsyncErr
  refine andThen_fuel _ _ (prepareContainerImage_fuel w _) ?_
  intro a q1
  refine andThen_fuel _ _ (prepareInputIso_fuel w _) ?_
  intro b q2
  exact joinLoop_fuel _ a b q2

theorem stage_fuel (w : World) (p : Proc) : (stage w p).outOfFuel = false := by
  unfold stage
  refine andThen_fuel _ _ (runCmdOutput_fuel w _ _ _) ?_
  intro out q
  refine andThen_fuel _ _ (runCmd_fuel w _ _ _) ?_
  intro _ q1
  refine andThen_fuel _ _ (runCmd_fuel w _ _ _) ?_
  intro _ q2
  exact andThen_fuel _ _ (runCmd_fuel w _ _ _) (fun _ _ => rfl)

/-- Every run ends: `run` returns or the process exits; the bound on the
iterations of the join loop is never reached. -/
theorem run_total (w : World) (p : Proc) : (run w p).outOfFuel = false := by
  have h1 := preflight_fuel w p
  unfold run
  cases hr : preflight w p with
  | exit q => rfl
  | fuel q => simp [hr, Res.outOfFuel] at h1
  | ret v p1 =>
    cases v with
    | some err => rfl
    | none =>
      have h2 := acquire_fuel w p1
      cases hr2 : acquire w p1 with
      | exit q => simp only [hr2]; rfl
      | fuel q => simp [hr2, Res.outOfFuel] at h2
      | ret v q =>
        cases v with
        | some err => simp only [hr2]; rfl
        | none =>
          simp only [hr2]
          unfold assemble
          split
          · rfl
          · exact stage_fuel w _

/-! ## Lemmas for the claims -/

theorem wrapImg_eq (e : GoErr) :
    ErrorfW "container image preparation failed: %w" e =
      .wrap ("container image preparation failed: " ++ e.Error) e := by
  unfold ErrorfW
  congr 1
  apply String.ext
  rw [String.data_append]
  calc _ = "container image preparation failed: ".data ++ (e.Error.data ++ []) := rfl
    _ = _ := by rw [List.append_nil]

theorem wrapIso_eq (e : GoErr) :
    ErrorfW "ISO preparation failed: %w" e = .wrap ("ISO preparation failed: " ++ e.Error) e := by
  unfold ErrorfW
  congr 1
  apply String.ext
  rw [String.data_append]
  calc _ = "ISO preparation failed: ".data ++ (e.Error.data ++ []) := rfl
    _ = _ := by rw [List.append_nil]

theorem signals_append (t s : List Event) : signals (t ++ s) = signals t ++ signals s := by
  induction t with
  | nil => rfl
  | cons e t ih => cases e <;> simp [signals, ih]

theorem run_unfold (w : World) (p p1 q1 q2 : Proc) (a b : Option GoErr)
    (hpre : preflight w p = .ret none p1)
    (himg : AsyncErr .img (prepareContainerImage w) (emit (.println "Fetching ISO...") p1) =
      .ret a q1)
    (hiso : AsyncErr .iso (prepareInputIso w) q1 = .ret b q2) :
    run w p =
      match joinLoop w.imgFirst a b 2 false false q2 with
      | .ret none q => assemble w q
      | r => r := by
  simp only [run, hpre, acquire, himg, hiso, Res.andThen]

theorem mem_of_ext_nil {P : Event → Prop} {t : List Event} (h : Ext P [] t) :
    ∀ e ∈ t, P e := by
  obtain ⟨s, rfl, hs⟩ := h
  simpa using hs

theorem joinLoop_failure (imgFirst : Bool) (a b : Option GoErr) (p : Proc)
    (hfail : a ≠ none ∨ b ≠ none) :
    (joinLoop imgFirst a b 2 false false p).returned ≠ some none := by
  cases imgFirst <;> cases a <;> cases b <;> simp [joinLoop, selectImg, Res.returned] at hfail ⊢

theorem run_of_preflight (w : World) (p : Proc) (h : (preflight w p).returned ≠ some none) :
    run w p = preflight w p := by
  unfold run
  cases hr : preflight w p with
  | ret v q =>
    cases v with
    | none => simp [hr, Res.returned] at h
    | some err => rfl
  | exit q => rfl
  | fuel q => rfl

theorem toolEffect_uname (cwd : String) (args : List String) (out : String) (fs : List String) :
    toolEffect cwd "uname" args out fs = fs := by
  simp [toolEffect]

theorem preflight_existing_output (w : World) (ib : IsoBuilder) (cwd : String)
    (fs : List String)
    (hexists : fileExists { ib := ib, cwd := resolve cwd ib.rootDir, fs := fs, trace := [] }
      ib.outputISO = true) :
    (preflight w (start ib cwd fs)).returned ≠ some none ∧
    (preflight w (start ib cwd fs)).proc.fs = fs ∧
    (w.LookPath "mkksiso" = true → w.LookPath "losetup" = true → w.LookPath "skopeo" = true →
      w.ChdirErr ib.rootDir = none →
      fileExists { ib := ib, cwd := resolve cwd ib.rootDir, fs := fs, trace := [] }
        "/dev/loop-control" = true →
      (∀ n, w.cmdErr n "uname" ["-m"] = none) →
      (∀ n, TrimSpace (w.cmdOut n "uname" ["-m"]) = "aarch64") →
      (preflight w (start ib cwd fs)).returned =
        some (some (.leaf ("output ISO " ++ ib.outputISO ++ " already exists")))) := by
  simp only [fileExists, Bool.and_eq_true, decide_eq_true_eq, bne_iff_ne, ne_eq] at hexists
  simp only [preflight, start, checkCommands, checkCommand, emit, Fatalf, Chdir,
    ensureLoopSupport, runCmdOutput, execOutput, execRun, fileExists, toolEffect_uname,
    Res.andThen]
  cases w.LookPath "mkksiso" <;> cases w.LookPath "losetup" <;> cases w.LookPath "skopeo" <;>
    simp [Res.proc, Res.returned]
  cases w.ChdirErr ib.rootDir <;> simp [Res.proc, Res.returned]
  by_cases hloop : resolve (resolve cwd ib.rootDir) "/dev/loop-control" ∈ fs <;>
    simp [hloop, Res.proc, Res.returned]
  cases hu : w.cmdErr 5 "uname" ["-m"] <;> simp [Res.proc, Res.returned]
  · by_cases harch : TrimSpace (w.cmdOut 5 "uname" ["-m"]) = "aarch64" <;>
      simp [harch, Res.proc, Res.returned, hexists]
    · intro _ _
      rfl
    · intro _ hall
      exact absurd (hall 5) harch
  · intro hall
    have := hall 5
    simp [hu] at this

/-! ## Claims -/

/-- C1, counterexample: both acquisition units fail (`skopeo copy` exits with
status 1 and the listing has no ISO name; with the other arrival order `run`
returns the ISO failure), the container image signal arrives first, and `run`
returns its error after having received that one signal only. -/
theorem run_returns_after_one_signal :
    (run (bothFail true) (start flagDefaults "/" ["/dev/loop-control"])).returned =
        some (some (.wrap "container image preparation failed: exit status 1"
          (.leaf "exit status 1"))) ∧
      signals (run (bothFail true) (start flagDefaults "/" ["/dev/loop-control"])).proc.trace =
        [(.img, some (.leaf "exit status 1"))] ∧
      ((run (bothFail false) (start flagDefaults "/" ["/dev/loop-control"])).returned.bind
        id).isSome = true ∧
      signals (run (bothFail false) (start flagDefaults "/" ["/dev/loop-control"])).proc.trace =
        [(.iso, some (.leaf "failed to extract ISO file name from http://download.eng.bos.redhat.com/rhel-9/nightly/RHEL-9/latest-RHEL-9.6/compose/BaseOS/aarch64/iso/"))] := by
  decide

/-- C1, as amended: once preflight has passed and the two units have put `a` and
`b` in their channels, `run` returns as soon as a received signal carries an
error.  If the first signal received carries an error, `run` returns with exactly
that one signal received; if it carries none, the second signal is received as
well; and `run` goes on to assembly only with both signals received, both
without error. -/
theorem run_join_returns_on_first_error (w : World) (p p1 q1 q2 : Proc) (a b : Option GoErr)
    (hpre : preflight w p = .ret none p1)
    (himg : AsyncErr .img (prepareContainerImage w) (emit (.println "Fetching ISO...") p1) =
      .ret a q1)
    (hiso : AsyncErr .iso (prepareInputIso w) q1 = .ret b q2) :
    (∀ e, w.imgFirst = true → a = some e →
      run w p = .ret (some (ErrorfW "container image preparation failed: %w" e))
        (emit (.recv .img (some e)) q2)) ∧
    (∀ e, w.imgFirst = false → b = some e →
      run w p = .ret (some (ErrorfW "ISO preparation failed: %w" e))
        (emit (.recv .iso (some e)) q2)) ∧
    (∀ e, w.imgFirst = true → a = none → b = some e →
      run w p = .ret (some (ErrorfW "ISO preparation failed: %w" e))
        (emit (.recv .iso (some e)) (emit (.println "Done preparing container image!")
          (emit (.recv .img none) q2)))) ∧
    (∀ e, w.imgFirst = false → b = none → a = some e →
      run w p = .ret (some (ErrorfW "container image preparation failed: %w" e))
        (emit (.recv .img (some e)) (emit (.println "Done fetching ISO!")
          (emit (.recv .iso none) q2)))) ∧
    (a = none → b = none →
      ∃ q, run w p = assemble w q ∧
        signals q.trace = signals q2.trace ++
          (if w.imgFirst then [(.img, none), (.iso, none)] else [(.iso, none), (.img, none)])) := by
  rw [run_unfold w p p1 q1 q2 a b hpre himg hiso]
  refine ⟨?_, ?_, ?_, ?_, ?_⟩
  · intro e hf ha
    subst ha
    simp [joinLoop, selectImg, hf]
  · intro e hf hb
    subst hb
    simp [joinLoop, selectImg, hf]
  · intro e hf ha hb
    subst ha hb
    simp [joinLoop, selectImg, hf]
  · intro e hf hb ha
    subst ha hb
    simp [joinLoop, selectImg, hf]
  · intro ha hb
    subst ha hb
    cases hf : w.imgFirst
    · refine ⟨_, by simp only [joinLoop, selectImg]; simp; rfl, ?_⟩
      simp [emit, signals_append, signals]
    · refine ⟨_, by simp only [joinLoop, selectImg]; simp; rfl, ?_⟩
      simp [emit, signals_append, signals]

/-- C1, witness: with both units failing and the container image signal first,
`run` returns the container image error with one signal received. -/
theorem run_join_returns_on_first_error_witness :
    run (bothFail true) (start flagDefaults "/" ["/dev/loop-control"]) =
      .ret (some (ErrorfW "container image preparation failed: %w" (.leaf "exit status 1")))
        (emit (.recv .img (some (.leaf "exit status 1"))) bothFailIso) :=
  (run_join_returns_on_first_error (bothFail true)
    (start flagDefaults "/" ["/dev/loop-control"]) bothFailChecked bothFailImg bothFailIso
    (some (.leaf "exit status 1"))
    (some (.leaf "failed to extract ISO file name from http://download.eng.bos.redhat.com/rhel-9/nightly/RHEL-9/latest-RHEL-9.6/compose/BaseOS/aarch64/iso/"))
    (by decide) (by decide) (by decide)).1 _ rfl rfl

/-- C2: in the trace of every run, an assembly step (the call of
`prepareKickstart` and its write, `mktemp -d`, a staging `cp`, `mkksiso`, the
removal of the temporary directory) comes only after both completion signals
were received, each with a nil error; and when preflight has passed and one of
the two units has put an error in its channel, the run has no assembly step at
all, so `mkksiso` is never invoked. -/
theorem run_assembly_only_after_both_signals (w : World) (ib : IsoBuilder) (cwd : String)
    (fs : List String) :
    (∀ pre e post, (run w (start ib cwd fs)).proc.trace = pre ++ e :: post →
      assemblyStep e = true → Event.recv .img none ∈ pre ∧ Event.recv .iso none ∈ pre) ∧
    (∀ p1 q1 q2 a b, preflight w (start ib cwd fs) = .ret none p1 →
      AsyncErr .img (prepareContainerImage w) (emit (.println "Fetching ISO...") p1) =
        .ret a q1 →
      AsyncErr .iso (prepareInputIso w) q1 = .ret b q2 →
      (a ≠ none ∨ b ≠ none) →
      ∀ e ∈ (run w (start ib cwd fs)).proc.trace, assemblyStep e = false) := by
  constructor
  · intro pre e post htrace hstep
    rcases run_shape w (start ib cwd fs) [] (Ext.refl _) with hno | ⟨q, hq, himg, hiso, hrest⟩
    · have := mem_of_ext_nil hno e (by rw [htrace]; simp)
      simp [hstep] at this
    · obtain ⟨s, hs, -⟩ := hrest
      rw [htrace] at hs
      have hcalm := mem_of_ext_nil hq
      rcases List.append_eq_append_iff.mp hs with ⟨a', h1, h2⟩ | ⟨c', h1, -⟩
      · cases a' with
        | nil =>
          simp only [List.append_nil] at h1
          subst h1
          exact ⟨himg, hiso⟩
        | cons x rest =>
          simp only [List.cons_append, List.cons.injEq] at h2
          have hx := (hcalm x (by rw [h1]; simp)).1
          rw [← h2.1, hstep] at hx
          simp at hx
      · subst h1
        exact ⟨List.mem_append_left _ himg, List.mem_append_left _ hiso⟩
  · intro p1 q1 q2 a b hpre himg hiso hfail
    have hjoin := joinLoop_failure w.imgFirst a b q2 hfail
    have hacq : acquire w p1 = joinLoop w.imgFirst a b 2 false false q2 := by
      simp only [acquire, himg, hiso, Res.andThen]
    have hrun : run w (start ib cwd fs) = acquire w p1 := by
      simp only [run, hpre]
      rw [hacq]
      cases hj : joinLoop w.imgFirst a b 2 false false q2 with
      | ret v q =>
        cases v with
        | none => simp [hj, Res.returned] at hjoin
        | some err => rfl
      | exit q => rfl
      | fuel q => rfl
    rw [hrun]
    have h1 : Ext (fun e => assemblyStep e = false) [] p1.trace := by
      have := preflight_ext w (start ib cwd fs) preflight_not_assembly (Ext.refl _)
      rw [hpre] at this
      exact this
    exact mem_of_ext_nil (acquire_ext w p1 unit_not_assembly (fun _ _ => rfl) h1)

/-- C2, witness: in the run where everything succeeds, `mkksiso` is the event
number 26 and both signals were received without error before it; in the run
where both units fail there is no assembly step. -/
theorem run_assembly_only_after_both_signals_witness :
    (Event.recv .img none ∈
        (run goodWorld (start suppliedInputs "/" workdirFiles)).proc.trace.take 26 ∧
      Event.recv .iso none ∈
        (run goodWorld (start suppliedInputs "/" workdirFiles)).proc.trace.take 26) ∧
      ∀ e ∈ (run (bothFail true) (start flagDefaults "/" ["/dev/loop-control"])).proc.trace,
        assemblyStep e = false :=
  ⟨(run_assembly_only_after_both_signals goodWorld suppliedInputs "/" workdirFiles).1
      ((run goodWorld (start suppliedInputs "/" workdirFiles)).proc.trace.take 26)
      (.exec "mkksiso" ["--ks", "/tmp/tmp.Xa1/ks.cfg", "-a", "/tmp/container", "-c",
        suppliedInputs.kernelArgs, "/tmp/tmp.Xa1/rhel.iso", "/workdir/output.iso"])
      ((run goodWorld (start suppliedInputs "/" workdirFiles)).proc.trace.drop 27)
      (by decide) (by decide),
    (run_assembly_only_after_both_signals (bothFail true) flagDefaults "/"
      ["/dev/loop-control"]).2 bothFailChecked bothFailImg bothFailIso
      (some (.leaf "exit status 1"))
      (some (.leaf "failed to extract ISO file name from http://download.eng.bos.redhat.com/rhel-9/nightly/RHEL-9/latest-RHEL-9.6/compose/BaseOS/aarch64/iso/"))
      (by decide) (by decide) (by decide) (by decide)⟩

/-- C3, the failing run: the input ISO named with `-i` does not exist, the
staging `cp` fails, `runCmd` ends the process with `log.Fatalf`, and the
temporary directory that `mktemp -d` created is still there: the deferred
`os.RemoveAll` has not run.  On the host where `cp` succeeds, `run` returns nil
and the directory is removed. -/
theorem run_fatal_cp_leaves_tempDir :
    (run (failingTool "cp")
        (start { suppliedInputs with inputISO := "missing.iso" } "/"
          ["/dev/loop-control", "/workdir/ks.cfg"])).exited = true ∧
      Event.exec "mktemp" ["-d"] ∈
        (run (failingTool "cp")
          (start { suppliedInputs with inputISO := "missing.iso" } "/"
            ["/dev/loop-control", "/workdir/ks.cfg"])).proc.trace ∧
      Event.removeAll "/tmp/tmp.Xa1" ∉
        (run (failingTool "cp")
          (start { suppliedInputs with inputISO := "missing.iso" } "/"
            ["/dev/loop-control", "/workdir/ks.cfg"])).proc.trace ∧
      "/tmp/tmp.Xa1" ∈
        (run (failingTool "cp")
          (start { suppliedInputs with inputISO := "missing.iso" } "/"
            ["/dev/loop-control", "/workdir/ks.cfg"])).proc.fs ∧
      (run goodWorld (start suppliedInputs "/" workdirFiles)).returned = some none ∧
      "/tmp/tmp.Xa1" ∉ (run goodWorld (start suppliedInputs "/" workdirFiles)).proc.fs := by
  decide

/-- C4: when `outputISO` names a file that exists, seen from `rootDir`, `run`
does not succeed, starts no goroutine, runs no command other than `uname`,
writes and removes nothing and leaves the file system as it was; and when the
checks before it pass (the three tools are found, the change of directory
succeeds, `/dev/loop-control` exists, `uname -m` prints `aarch64`), `run`
returns the error `output ISO ... already exists`. -/
theorem run_rejects_existing_output (w : World) (ib : IsoBuilder) (cwd : String)
    (fs : List String)
    (hexists : fileExists { ib := ib, cwd := resolve cwd ib.rootDir, fs := fs, trace := [] }
      ib.outputISO = true) :
    (run w (start ib cwd fs)).returned ≠ some none ∧
    (run w (start ib cwd fs)).proc.fs = fs ∧
    (∀ c, Event.go c ∉ (run w (start ib cwd fs)).proc.trace) ∧
    (∀ name args, Event.exec name args ∈ (run w (start ib cwd fs)).proc.trace →
      name = "uname") ∧
    (∀ path content, Event.writeFile path content ∉ (run w (start ib cwd fs)).proc.trace) ∧
    (∀ path, Event.removeAll path ∉ (run w (start ib cwd fs)).proc.trace) ∧
    (w.LookPath "mkksiso" = true → w.LookPath "losetup" = true → w.LookPath "skopeo" = true →
      w.ChdirErr ib.rootDir = none →
      fileExists { ib := ib, cwd := resolve cwd ib.rootDir, fs := fs, trace := [] }
        "/dev/loop-control" = true →
      (∀ n, w.cmdErr n "uname" ["-m"] = none) →
      (∀ n, TrimSpace (w.cmdOut n "uname" ["-m"]) = "aarch64") →
      (run w (start ib cwd fs)).returned =
        some (some (.leaf ("output ISO " ++ ib.outputISO ++ " already exists")))) := by
  obtain ⟨h1, h2, h3⟩ := preflight_existing_output w ib cwd fs hexists
  rw [run_of_preflight _ _ h1]
  have hall : ∀ e ∈ (preflight w (start ib cwd fs)).proc.trace, preflightEvent e = true :=
    mem_of_ext_nil (preflight_ext w (start ib cwd fs) (fun _ h => h) (Ext.refl []))
  refine ⟨h1, h2, ?_, ?_, ?_, ?_, h3⟩
  · intro c hc
    have := hall _ hc
    simp [preflightEvent] at this
  · intro name args hc
    have := hall _ hc
    simpa [preflightEvent] using this
  · intro path content hc
    have := hall _ hc
    simp [preflightEvent] at this
  · intro path hc
    have := hall _ hc
    simp [preflightEvent] at this

/-- C4, witness: on the host where everything succeeds and `/workdir/output.iso`
exists, `run` returns the error naming `output.iso`. -/
theorem run_rejects_existing_output_witness :
    fileExists
        { ib := suppliedInputs, cwd := resolve "/" suppliedInputs.rootDir,
          fs := "/workdir/output.iso" :: workdirFiles, trace := [] }
        suppliedInputs.outputISO = true ∧
      (run goodWorld (start suppliedInputs "/" ("/workdir/output.iso" :: workdirFiles))).returned =
        some (some (.leaf "output ISO output.iso already exists")) :=
  ⟨by decide,
    (run_rejects_existing_output goodWorld suppliedInputs "/"
      ("/workdir/output.iso" :: workdirFiles) (by decide)).2.2.2.2.2.2
      (by decide) (by decide) (by decide) (by decide) (by decide) (fun _ => rfl)
      (fun _ => rfl)⟩

/-- C5: once preflight has passed and the two units have put `a` and `b` in
their channels, `run` returns the error of the unit whose failure is received
first, wrapped with the label of that unit: the container image error when its
signal is received first or when the ISO signal came first without error, the
ISO error in the two other cases.  The returned error holds the error of one
unit only. -/
theorem run_first_error_wins (w : World) (p p1 q1 q2 : Proc) (a b : Option GoErr)
    (hpre : preflight w p = .ret none p1)
    (himg : AsyncErr .img (prepareContainerImage w) (emit (.println "Fetching ISO...") p1) =
      .ret a q1)
    (hiso : AsyncErr .iso (prepareInputIso w) q1 = .ret b q2) :
    (∀ e, w.imgFirst = true → a = some e →
      (run w p).returned =
        some (some (.wrap ("container image preparation failed: " ++ e.Error) e))) ∧
    (∀ e, w.imgFirst = true → a = none → b = some e →
      (run w p).returned = some (some (.wrap ("ISO preparation failed: " ++ e.Error) e))) ∧
    (∀ e, w.imgFirst = false → b = some e →
      (run w p).returned = some (some (.wrap ("ISO preparation failed: " ++ e.Error) e))) ∧
    (∀ e, w.imgFirst = false → b = none → a = some e →
      (run w p).returned =
        some (some (.wrap ("container image preparation failed: " ++ e.Error) e))) := by
  rw [run_unfold w p p1 q1 q2 a b hpre himg hiso]
  refine ⟨?_, ?_, ?_, ?_⟩
  · intro e hf ha
    subst ha
    simp [joinLoop, selectImg, hf, wrapImg_eq, Res.returned]
  · intro e hf ha hb
    subst ha hb
    simp [joinLoop, selectImg, hf, wrapIso_eq, Res.returned]
  · intro e hf hb
    subst hb
    simp [joinLoop, selectImg, hf, wrapIso_eq, Res.returned]
  · intro e hf hb ha
    subst ha hb
    simp [joinLoop, selectImg, hf, wrapImg_eq, Res.returned]

/-- C5, witness: both units fail and the ISO signal is received first: the ISO
error is returned, the `skopeo` error is not part of it. -/
theorem run_first_error_wins_witness :
    (run (bothFail false) (start flagDefaults "/" ["/dev/loop-control"])).returned =
      some (some (.wrap
        ("ISO preparation failed: " ++
          GoErr.Error (.leaf "failed to extract ISO file name from http://download.eng.bos.redhat.com/rhel-9/nightly/RHEL-9/latest-RHEL-9.6/compose/BaseOS/aarch64/iso/"))
        (.leaf "failed to extract ISO file name from http://download.eng.bos.redhat.com/rhel-9/nightly/RHEL-9/latest-RHEL-9.6/compose/BaseOS/aarch64/iso/"))) :=
  (run_first_error_wins (bothFail false) (start flagDefaults "/" ["/dev/loop-control"])
    (preflight (bothFail false) (start flagDefaults "/" ["/dev/loop-control"])).proc
    (AsyncErr .img (prepareContainerImage (bothFail false))
      (emit (.println "Fetching ISO...")
        (preflight (bothFail false) (start flagDefaults "/" ["/dev/loop-control"])).proc)).proc
    (AsyncErr .iso (prepareInputIso (bothFail false))
      (AsyncErr .img (prepareContainerImage (bothFail false))
        (emit (.println "Fetching ISO...")
          (preflight (bothFail false)
            (start flagDefaults "/" ["/dev/loop-control"])).proc)).proc).proc
    (some (.leaf "exit status 1"))
    (some (.leaf "failed to extract ISO file name from http://download.eng.bos.redhat.com/rhel-9/nightly/RHEL-9/latest-RHEL-9.6/compose/BaseOS/aarch64/iso/"))
    (by decide) (by decide) (by decide)).2.2.1 _ rfl rfl

/-- C6: with no input ISO given and a `rhelVersion` that does not split at the
dots in exactly two parts, `prepareInputIso` returns the error `invalid RHEL
version format: expected MAJOR.MINOR`; nothing has happened but the call itself:
no command was run, and the builder, with its empty `inputISO`, and the file
system are as before. -/
theorem prepareInputIso_rejects_malformed_version (w : World) (p : Proc)
    (hempty : p.ib.inputISO = "") (hbad : (SplitDot p.ib.rhelVersion).length ≠ 2) :
    prepareInputIso w p =
      .ret (some (.leaf "invalid RHEL version format: expected MAJOR.MINOR"))
        (emit (.enter "prepareInputIso") p) := by
  unfold prepareInputIso
  simp only [emit, hempty, if_true]
  split
  · rename_i major minor h
    rw [h] at hbad
    simp at hbad
  · rfl

/-- C6, witness: the version `9.6.1` has three parts. -/
theorem prepareInputIso_rejects_malformed_version_witness :
    (SplitDot "9.6.1").length ≠ 2 ∧
      prepareInputIso goodWorld
          (start { flagDefaults with rhelVersion := "9.6.1" } "/workdir" ["/dev/loop-control"]) =
        .ret (some (.leaf "invalid RHEL version format: expected MAJOR.MINOR"))
          (emit (.enter "prepareInputIso")
            (start { flagDefaults with rhelVersion := "9.6.1" } "/workdir"
              ["/dev/loop-control"])) :=
  ⟨by decide,
    prepareInputIso_rejects_malformed_version goodWorld
      (start { flagDefaults with rhelVersion := "9.6.1" } "/workdir" ["/dev/loop-control"])
      rfl (by decide)⟩

/-- C7: `prepareKickstart` resolves the kickstart file in this order.  (a) A
`kickstartFile` that is not empty is kept: nil is returned and nothing changes
but the record of the call.  (b) Otherwise, if `kickstart.ks` exists, it becomes
the `kickstartFile`, nil is returned and nothing is written.  (c) Otherwise the
default content for `kernelArgs` is written to `kickstart.ks`, which becomes the
`kickstartFile`, and the result is the error of the write: when the write
succeeds the file `kickstart.ks` of the working directory is new in the file
system, when it fails the file system is as before. -/
theorem prepareKickstart_precedence (w : World) (p : Proc) :
    (p.ib.kickstartFile ≠ "" →
      prepareKickstart w p = (none, emit (.enter "prepareKickstart") p)) ∧
    (p.ib.kickstartFile = "" → fileExists p "kickstart.ks" = true →
      prepareKickstart w p =
        (none, { p with
          ib := { p.ib with kickstartFile := "kickstart.ks" },
          trace := p.trace ++ [.enter "prepareKickstart", .stat "kickstart.ks"] })) ∧
    (p.ib.kickstartFile = "" → fileExists p "kickstart.ks" = false →
      (prepareKickstart w p).1 = w.WriteFileErr "kickstart.ks" ∧
      (prepareKickstart w p).2.ib = { p.ib with kickstartFile := "kickstart.ks" } ∧
      (prepareKickstart w p).2.trace =
        p.trace ++ [.enter "prepareKickstart", .stat "kickstart.ks",
          .println "Generating default kickstart.ks",
          .writeFile "kickstart.ks" (defaultKickstart p.ib.kernelArgs)] ∧
      (prepareKickstart w p).2.cwd = p.cwd ∧
      (w.WriteFileErr "kickstart.ks" = none →
        (prepareKickstart w p).2.fs = resolve p.cwd "kickstart.ks" :: p.fs) ∧
      (∀ err, w.WriteFileErr "kickstart.ks" = some err →
        (prepareKickstart w p).2.fs = p.fs)) := by
  refine ⟨?_, ?_, ?_⟩
  · intro h
    simp [prepareKickstart, emit, h]
  · intro h hex
    simp [fileExists] at hex
    simp [prepareKickstart, emit, h, fileExists, hex]
  · intro h hex
    simp [fileExists] at hex
    simp only [prepareKickstart, emit, h, fileExists, WriteFile]
    cases w.WriteFileErr "kickstart.ks" <;> simp [hex]

/-- C7, witness: the three cases on the host where everything succeeds, where
the write of case (c) creates `/workdir/kickstart.ks`, and case (c) on a host
where the write fails, where no file is created. -/
theorem prepareKickstart_precedence_witness :
    (prepareKickstart goodWorld (start suppliedInputs "/workdir" workdirFiles)).2.ib.kickstartFile =
        "ks.cfg" ∧
      (prepareKickstart goodWorld
          (start flagDefaults "/workdir" ["/workdir/kickstart.ks"])).2.trace =
        [.enter "prepareKickstart", .stat "kickstart.ks"] ∧
      (prepareKickstart goodWorld (start flagDefaults "/workdir" [])).1 = none ∧
      (prepareKickstart goodWorld (start flagDefaults "/workdir" [])).2.fs =
        ["/workdir/kickstart.ks"] ∧
      (prepareKickstart readOnlyWorld (start flagDefaults "/workdir" [])).1 =
        some (.leaf "open kickstart.ks: read-only file system") ∧
      (prepareKickstart readOnlyWorld (start flagDefaults "/workdir" [])).2.fs = [] :=
  ⟨congrArg (fun r => r.2.ib.kickstartFile)
      ((prepareKickstart_precedence goodWorld (start suppliedInputs "/workdir" workdirFiles)).1
        (by decide)),
    congrArg (fun r => r.2.trace)
      ((prepareKickstart_precedence goodWorld
        (start flagDefaults "/workdir" ["/workdir/kickstart.ks"])).2.1 rfl (by decide)),
    ((prepareKickstart_precedence goodWorld (start flagDefaults "/workdir" [])).2.2 rfl
      (by decide)).1,
    ((prepareKickstart_precedence goodWorld (start flagDefaults "/workdir" [])).2.2 rfl
      (by decide)).2.2.2.2.1 rfl,
    ((prepareKickstart_precedence readOnlyWorld (start flagDefaults "/workdir" [])).2.2 rfl
      (by decide)).1,
    ((prepareKickstart_precedence readOnlyWorld (start flagDefaults "/workdir" [])).2.2 rfl
      (by decide)).2.2.2.2.2 _ rfl⟩

/-- C8: for every kernel argument string `s` the synthesized kickstart content is
a fixed text, the line `bootloader --location=mbr --driveorder=sda --append="s"`
with `s` as it is, and a second fixed text: `s` stands once, unchanged, between
the quotes of the append directive, and nothing else depends on it. -/
theorem defaultKickstart_embeds_kernelArgs (s : String) :
    defaultKickstart s =
      "# Root Password\nrootpw redhat\nlang en_US.UTF-8\ntimezone America/New_York --utc\ntext\neula --agreed\nskipx\nclearpart --all --initlabel\nautopart --type=lvm --noswap\n" ++
        ("bootloader --location=mbr --driveorder=sda --append=\"" ++ s ++ "\"") ++
        "\nnetwork --bootproto=dhcp --device=enp0s1f0d1\nostreecontainer --url=/run/install/repo/container --transport=oci --no-signature-verification\n%post\necho \x27PermitRootLogin yes\x27 >> /etc/ssh/sshd_config\nsystemctl restart sshd.service\nnmcli con modify enp0s1f0 ipv4.never-default yes\n%end\nreboot" := by
  apply String.ext
  simp only [String.data_append, List.append_assoc]
  rfl

/-- C9, the failing run: with `-i images/rhel.iso` the staging `cp` puts the copy
at `/tmp/tmp.Xa1/rhel.iso`, the temporary directory joined with the last element
of the path, while `inputISO` becomes `/tmp/tmp.Xa1/images/rhel.iso`, which does
not exist and is what `mkksiso` is given. -/
theorem stage_rewrites_inputISO_to_missing_path :
    (run (failingTool "mkksiso")
        (start { suppliedInputs with inputISO := "images/rhel.iso" } "/"
          ["/dev/loop-control", "/workdir/images/rhel.iso", "/workdir/ks.cfg"])).proc.ib.inputISO =
        "/tmp/tmp.Xa1/images/rhel.iso" ∧
      Join ["/tmp/tmp.Xa1", Base "images/rhel.iso"] = "/tmp/tmp.Xa1/rhel.iso" ∧
      "/tmp/tmp.Xa1/rhel.iso" ∈
        (run (failingTool "mkksiso")
          (start { suppliedInputs with inputISO := "images/rhel.iso" } "/"
            ["/dev/loop-control", "/workdir/images/rhel.iso", "/workdir/ks.cfg"])).proc.fs ∧
      "/tmp/tmp.Xa1/images/rhel.iso" ∉
        (run (failingTool "mkksiso")
          (start { suppliedInputs with inputISO := "images/rhel.iso" } "/"
            ["/dev/loop-control", "/workdir/images/rhel.iso", "/workdir/ks.cfg"])).proc.fs ∧
      Event.exec "mkksiso" ["--ks", "/tmp/tmp.Xa1/ks.cfg", "-a", "/tmp/container", "-c",
          suppliedInputs.kernelArgs, "/tmp/tmp.Xa1/images/rhel.iso", "/workdir/output.iso"] ∈
        (run (failingTool "mkksiso")
          (start { suppliedInputs with inputISO := "images/rhel.iso" } "/"
            ["/dev/loop-control", "/workdir/images/rhel.iso", "/workdir/ks.cfg"])).proc.trace := by
  decide

/-- C10, the failing run: with `-o /out/custom.iso` preflight checks
`/out/custom.iso`, which is absent, and `mkksiso` is then given
`/workdir/out/custom.iso`, which exists when it is invoked. -/
theorem run_output_path_exists_at_mkksiso :
    "/out/custom.iso" ∉ "/workdir/out/custom.iso" :: workdirFiles ∧
      Event.stat "/out/custom.iso" ∈
        (run (failingTool "mkksiso")
          (start { suppliedInputs with outputISO := "/out/custom.iso" } "/"
            ("/workdir/out/custom.iso" :: workdirFiles))).proc.trace ∧
      Event.exec "mkksiso" ["--ks", "/tmp/tmp.Xa1/ks.cfg", "-a", "/tmp/container", "-c",
          suppliedInputs.kernelArgs, "/tmp/tmp.Xa1/rhel.iso", "/workdir/out/custom.iso"] ∈
        (run (failingTool "mkksiso")
          (start { suppliedInputs with outputISO := "/out/custom.iso" } "/"
            ("/workdir/out/custom.iso" :: workdirFiles))).proc.trace ∧
      (run (failingTool "mkksiso")
          (start { suppliedInputs with outputISO := "/out/custom.iso" } "/"
            ("/workdir/out/custom.iso" :: workdirFiles))).proc.ib.outputISO =
        "/workdir/out/custom.iso" ∧
      "/workdir/out/custom.iso" ∈
        (run (failingTool "mkksiso")
          (start { suppliedInputs with outputISO := "/out/custom.iso" } "/"
            ("/workdir/out/custom.iso" :: workdirFiles))).proc.fs := by
  decide

end Main
